import Mathlib

/-!
Shallow embedding of the FETS-POINT operations console (TypeScript) and
verification of its specification claims.

The embedding translates the relevant source functions:
- `validateSessionCapacity`, from the session-capacity utilities;
- `quickAddMonth`, `saveShift`, `applyApprovedRequest`, `createNewVersion`,
  `getNextVersionNumber`, from the roster component;
- `handleCreateInstance`, from the checklist-management component;
- `processBulkUpload`, from the candidate-tracker component;
- `formatDateForIST` (absent from the sources; modelled from the spec).

Remote-database calls are modelled as pure state transformations on lists
of rows, with failures of individual calls injected as `Option String`
parameters (the error message the call would produce, `none` when the call
succeeds).
-/

namespace FetsPoint

/-! ## Session capacity validation (`validateSessionCapacity`) -/

structure CapacityValidationResult where
  isValid : Bool
  warning : Option String
  error : Option String
  deriving Repr, DecidableEq

/-- Embedding of `validateSessionCapacity`.  The TypeScript source compares
the candidate count against `MAX_CAPACITY = 40` and `WARNING_THRESHOLD = 30`
and interpolates the count into the warning message. -/
def validateSessionCapacity (candidateCount : Int) : CapacityValidationResult :=
  if candidateCount > 40 then
    { isValid := false
      warning := none
      error := some "Session exceeds maximum capacity of 40 candidates" }
  else if candidateCount ≥ 30 then
    { isValid := true
      warning := some ("Session approaching capacity (" ++ toString candidateCount
        ++ "/40 candidates)")
      error := none }
  else
    { isValid := true, warning := none, error := none }

/-! ## Roster schedule rows and `quickAddMonth` -/

/-- A row of the `roster_schedules` table as inserted by `quickAddMonth`
(the insert payload has no id; the database generates one). -/
structure Schedule where
  profile_id : String
  date : String
  shift_code : String
  status : String
  deriving Repr, DecidableEq

/-- Key match used throughout the roster component:
`s.profile_id === profileId && s.date === dateStr`. -/
def scheduleKeyMatch (profileId date : String) (s : Schedule) : Bool :=
  s.profile_id == profileId && s.date == date

/-- The inner loop of `quickAddMonth` for one staff member: walk the days of
the displayed month with a running `dayCounter`, and for each day lacking an
existing row emit a payload whose shift code follows the
6-days-on/1-day-off pattern (`dayCounter % 7 === 6 ? 'RD' : 'D'`). -/
def quickAddDays (staffId : String) (store : List Schedule) :
    Nat → List String → List Schedule
  | _, [] => []
  | dayCounter, d :: rest =>
    let emitted :=
      if (store.find? (scheduleKeyMatch staffId d)).isSome then []
      else [{ profile_id := staffId
              date := d
              shift_code := if dayCounter % 7 == 6 then "RD" else "D"
              status := "confirmed" : Schedule }]
    emitted ++ quickAddDays staffId store (dayCounter + 1) rest

/-- The rows `quickAddMonth` accumulates into `schedulesToCreate`:
for every staff profile, the per-staff walk starting at `dayCounter = 0`. -/
def quickAddRows (staffProfiles : List String) (days : List String)
    (store : List Schedule) : List Schedule :=
  staffProfiles.flatMap fun staff => quickAddDays staff store 0 days

/-- The effect of `quickAddMonth` on the schedule store: the accumulated
payloads are inserted (appended); no existing row is updated or deleted. -/
def quickAddMonth (staffProfiles : List String) (days : List String)
    (store : List Schedule) : List Schedule :=
  store ++ quickAddRows staffProfiles days store

/-! ## Decimal rendering and parsing of version suffixes

`getNextVersionNumber` works on strings: it strips the `"v."` prefix with
`replace`, parses the remaining decimal digits with `parseInt`, adds one and
re-renders with `padStart(2, '0')`.  We model the digit pipeline explicitly. -/

/-- Decimal digits, most significant first, with structural recursion on a
fuel bound (any `fuel > n` yields the digits of `n`). -/
def decDigitsCore : Nat → Nat → List Nat
  | 0, _ => []
  | fuel + 1, n => if n < 10 then [n] else decDigitsCore fuel (n / 10) ++ [n % 10]

/-- Decimal digits of `n`, most significant first (`toString` on a JS number
restricted to naturals; also Lean's `Nat.repr`, modelled independently so
that the parse/render round trip can be proved by induction). -/
def decDigits (n : Nat) : List Nat := decDigitsCore (n + 1) n

/-- `parseInt` on a digit list: left fold accumulating `acc * 10 + d`.
(JS `parseInt` reads the maximal leading digit run; the strings this model
is applied to consist of digits only.) -/
def parseDigits (acc : Nat) (ds : List Nat) : Nat :=
  match ds with
  | [] => acc
  | d :: rest => parseDigits (acc * 10 + d) rest

/-- Render a digit (0–9) as its ASCII character. -/
def digitChar (d : Nat) : Char := Char.ofNat (48 + d)

/-- Numeric value of an ASCII digit character (`c - '0'`). -/
def charDigit (c : Char) : Nat := c.toNat - 48

/-- `n.toString()` for a natural number, via `decDigits`. -/
def natToString (n : Nat) : String := ⟨(decDigits n).map digitChar⟩

/-- `n.toString().padStart(2, '0')`: pad on the left with `'0'` up to
width 2. -/
def padStart2 (s : String) : String :=
  if s.length < 2 then ⟨List.replicate (2 - s.length) '0' ++ s.data⟩ else s

/-- The version string the roster component writes for numeric suffix `n`:
`"v." + n.toString().padStart(2, '0')`. -/
def formatVersion (n : Nat) : String := "v." ++ padStart2 (natToString n)

/-- `s.replace('v.', '')` for the version strings the component itself
produces: the first (and only) occurrence of `"v."` in `"v.NN"` is the
prefix, so `replace` removes exactly it. -/
def stripVPrefix (cs : List Char) : List Char :=
  match cs with
  | 'v' :: '.' :: rest => rest
  | other => other

/-- `parseInt(s.replace('v.', ''))` on a well-formed version string: strip
the `"v."` prefix and fold up the decimal digits. -/
def parseVersionSuffix (s : String) : Nat :=
  parseDigits 0 ((stripVPrefix s.data).map charDigit)

/-! ## Roster version ledger -/

/-- A row of the `roster_versions` table. -/
structure RosterVersion where
  id : Nat
  month : Nat
  year : Nat
  version_number : String
  created_by : String
  edit_log : String
  is_active : Bool
  deriving Repr, DecidableEq

/-- Embedding of `getNextVersionNumber`: the component keeps `versions`
ordered newest first; an empty history yields `"v.01"`, otherwise the head's
numeric suffix plus one, zero-padded. -/
def getNextVersionNumber (versions : List RosterVersion) : String :=
  match versions with
  | [] => "v.01"
  | latest :: _ =>
    formatVersion (parseVersionSuffix latest.version_number + 1)

/-- The deactivation step of `createNewVersion`: when the component tracks a
current active version, flip `is_active` to `false` on the row with its id. -/
def deactivateCurrent (ledger : List RosterVersion)
    (currentVersion : Option RosterVersion) : List RosterVersion :=
  match currentVersion with
  | none => ledger
  | some cv =>
    ledger.map fun v => if v.id == cv.id then { v with is_active := false } else v

/-- The new version row `createNewVersion` inserts for scope
(`month`, `year`): always marked active, carrying the edit log and the
acting user. -/
def mkVersionRow (newId month year : Nat) (versionNumber createdBy editLog : String) :
    RosterVersion :=
  { id := newId, month := month, year := year, version_number := versionNumber
    created_by := createdBy, edit_log := editLog, is_active := true }

/-- Embedding of `createNewVersion` with injected call failures.  The body
deactivates the current version, then inserts the new row; any error raised
by either remote call is caught by the surrounding `try`/`catch`, which only
logs it — the function never rethrows.  The result is the ledger state
together with the logged error, if any (the state reached when a call fails
mid-sequence is the partial one). -/
def createNewVersionRun (ledger : List RosterVersion)
    (currentVersion : Option RosterVersion) (newRow : RosterVersion)
    (deactivateErr insertErr : Option String) :
    List RosterVersion × Option String :=
  match deactivateErr with
  | some e => (ledger, some e)
  | none =>
    let deactivated := deactivateCurrent ledger currentVersion
    match insertErr with
    | some e => (deactivated, some e)
    | none => (deactivated ++ [newRow], none)

/-- Number of active version rows for a (month, year) scope. -/
def countActiveScope (ledger : List RosterVersion) (month year : Nat) : Nat :=
  ledger.countP fun v => v.is_active && v.month == month && v.year == year

/-! ## Schedule rows with ids, `applyApprovedRequest` and `saveShift`

`saveShift` and `applyApprovedRequest` update an existing row through its
database id (`.eq('id', existing.id)`), so this part of the embedding keeps
the id on the row. -/

/-- A row of `roster_schedules` as read back from the database (with id). -/
structure ScheduleRow where
  id : Nat
  profile_id : String
  date : String
  shift_code : String
  status : String
  deriving Repr, DecidableEq

/-- Key match on id-bearing rows. -/
def rowKeyMatch (profileId date : String) (s : ScheduleRow) : Bool :=
  s.profile_id == profileId && s.date == date

/-- The shared upsert of `saveShift` and `applyApprovedRequest`: look up an
existing row by (profile, date); update it by id when found, insert a fresh
row otherwise.  The update payload rewrites `shift_code` and `status`
(overwrite, not merge). -/
def upsertSchedule (store : List ScheduleRow) (profileId date shiftCode : String)
    (freshId : Nat) : List ScheduleRow :=
  match store.find? (rowKeyMatch profileId date) with
  | some existing =>
    store.map fun s =>
      if s.id == existing.id then
        { s with profile_id := profileId, date := date
                 shift_code := shiftCode, status := "confirmed" }
      else s
  | none =>
    store ++ [{ id := freshId, profile_id := profileId, date := date
                shift_code := shiftCode, status := "confirmed" }]

/-- A row of `leave_requests` (the fields `applyApprovedRequest` reads). -/
structure LeaveRequest where
  user_id : String
  request_type : String
  requested_date : String
  deriving Repr, DecidableEq

/-- The shift code `applyApprovedRequest` derives from the request type:
`request.request_type === 'half_day' ? 'HD' : 'L'`. -/
def requestShiftCode (requestType : String) : String :=
  if requestType == "half_day" then "HD" else "L"

/-- Embedding of the schedule write of `applyApprovedRequest`: upsert the
derived shift code at (requesting staff member, requested date). -/
def applyApprovedRequest (store : List ScheduleRow) (request : LeaveRequest)
    (freshId : Nat) : List ScheduleRow :=
  upsertSchedule store request.user_id request.requested_date
    (requestShiftCode request.request_type) freshId

/-- Embedding of `applyApprovedRequest` as run by `approveRequest`, with
failures injected: a failing schedule write throws (rethrown to the caller),
while the trailing `createNewVersion` swallows its own failures. -/
def applyApprovedRequestRun (store : List ScheduleRow) (request : LeaveRequest)
    (freshId : Nat) (ledger : List RosterVersion)
    (currentVersion : Option RosterVersion) (newRow : RosterVersion)
    (scheduleErr deactivateErr insertErr : Option String) :
    Except String (List ScheduleRow × List RosterVersion) :=
  match scheduleErr with
  | some e => .error e
  | none =>
    let store' := applyApprovedRequest store request freshId
    let (ledger', _logged) :=
      createNewVersionRun ledger currentVersion newRow deactivateErr insertErr
    .ok (store', ledger')

/-- Embedding of `saveShift` with failures injected, returning the final
store, ledger and the notification shown to the user.  The schedule write
failing lands in the `catch` and shows the failure notification; the
`createNewVersion` call never throws, so once the schedule write succeeded
the success notification is always shown. -/
def saveShiftRun (store : List ScheduleRow) (profileId date shiftCode : String)
    (freshId : Nat) (ledger : List RosterVersion)
    (currentVersion : Option RosterVersion) (newRow : RosterVersion)
    (scheduleErr deactivateErr insertErr : Option String) :
    List ScheduleRow × List RosterVersion × String :=
  match scheduleErr with
  | some e => (store, ledger, "error: Failed to save shift: " ++ e)
  | none =>
    let store' := upsertSchedule store profileId date shiftCode freshId
    let (ledger', _logged) :=
      createNewVersionRun ledger currentVersion newRow deactivateErr insertErr
    (store', ledger', "success: Shift updated successfully!")

/-- Embedding of `quickAddMonth` with failures injected, returning the final
store, ledger and the notification.  When there are rows to create, a failed
bulk insert lands in the `catch`; a successful insert is followed by
`createNewVersion` (which swallows its own failures) and the success
notification. -/
def quickAddMonthRun (staffProfiles : List String) (days : List String)
    (store : List Schedule) (ledger : List RosterVersion)
    (currentVersion : Option RosterVersion) (newRow : RosterVersion)
    (bulkInsertErr deactivateErr insertErr : Option String) :
    List Schedule × List RosterVersion × String :=
  let rows := quickAddRows staffProfiles days store
  if rows.length > 0 then
    match bulkInsertErr with
    | some _ =>
      (store, ledger, "error: Failed to generate month roster. Check console for details.")
    | none =>
      let (ledger', _logged) :=
        createNewVersionRun ledger currentVersion newRow deactivateErr insertErr
      (store ++ rows, ledger',
        "success: Generated " ++ toString rows.length ++ " roster entries successfully!")
  else
    (store, ledger, "warning: All roster entries already exist for this month")

/-! ## Checklist instantiation (`handleCreateInstance`) -/

/-- A row of `checklist_template_items` (the fields `handleCreateInstance`
copies). -/
structure ChecklistTemplateItem where
  id : String
  title : String
  description : Option String
  priority : String
  estimated_time_minutes : Nat
  responsible_role : String
  notes : Option String
  sort_order : Nat
  deriving Repr, DecidableEq

/-- A `checklist_templates` row with its nested items. -/
structure ChecklistTemplate where
  id : String
  name : String
  category : String
  items : List ChecklistTemplateItem
  deriving Repr, DecidableEq

/-- The `checklist_instances` row `handleCreateInstance` inserts. -/
structure ChecklistInstance where
  template_id : String
  name : String
  category : String
  exam_date : String
  created_by : String
  deriving Repr, DecidableEq

/-- A row of `checklist_instance_items`.  The insert payload built by
`handleCreateInstance` carries only the copied fields and the backlink; the
completion columns are omitted, so a fresh row takes the table defaults
(`is_completed` false, `completed_by`/`completed_at` NULL), which is also
how the component's own `ChecklistInstanceItem` interface types them. -/
structure ChecklistInstanceItem where
  instance_id : String
  template_item_id : Option String
  title : String
  description : Option String
  priority : String
  estimated_time_minutes : Nat
  responsible_role : String
  notes : Option String
  sort_order : Nat
  is_completed : Bool
  completed_by : Option String
  completed_at : Option String
  deriving Repr, DecidableEq

/-- Embedding of `handleCreateInstance`: insert one instance row named
`"{template.name} - {today}"`, then copy every template item into an
instance item referencing its source template item id. -/
def handleCreateInstance (template : ChecklistTemplate) (today instanceId userId : String) :
    ChecklistInstance × List ChecklistInstanceItem :=
  let instanceRow : ChecklistInstance :=
    { template_id := template.id
      name := template.name ++ " - " ++ today
      category := template.category
      exam_date := today
      created_by := userId }
  let instanceItems := template.items.map fun item =>
    { instance_id := instanceId
      template_item_id := some item.id
      title := item.title
      description := item.description
      priority := item.priority
      estimated_time_minutes := item.estimated_time_minutes
      responsible_role := item.responsible_role
      notes := item.notes
      sort_order := item.sort_order
      is_completed := false
      completed_by := none
      completed_at := none : ChecklistInstanceItem }
  (instanceRow, instanceItems)

/-! ## CSV bulk upload (`processBulkUpload`) -/

/-- A parsed CSV data row (the fields the per-row validation reads; an
empty string models a missing value). -/
structure CandidateRow where
  full_name : String
  email : String
  deriving Repr, DecidableEq

/-- The per-row outcome of the bulk-upload loop at 0-based index `i`
(messages cite `Row ${i + 2}`, counting the header line and 1-based rows):
missing name/email and duplicate-email rows are rejected before the insert,
and an injected database error on the insert yields the database message. -/
def bulkRowError (existingEmails : List String) (i : Nat) (row : CandidateRow)
    (dbErr : Option String) : Option String :=
  if row.full_name == "" || row.email == "" then
    some ("Row " ++ toString (i + 2) ++ ": Missing name or email")
  else if existingEmails.contains row.email then
    some ("Row " ++ toString (i + 2) ++ ": Email " ++ row.email ++ " already exists")
  else
    match dbErr with
    | some m => some ("Row " ++ toString (i + 2) ++ ": Database error - " ++ m)
    | none => none

/-- The per-row loop of `processBulkUpload` starting at 0-based index `i`:
each row either increments the success count or appends its error message,
and the loop always continues with the remaining rows.  The duplicate check
runs against the `candidates` list loaded before the batch, which the loop
does not extend.  Returns the pair reported as `uploadResults`
(`{ success, errors }`). -/
def processRows (existingEmails : List String) :
    Nat → List (CandidateRow × Option String) → Nat × List String
  | _, [] => (0, [])
  | i, (row, dbErr) :: rest =>
    match bulkRowError existingEmails i row dbErr with
    | some e =>
      ((processRows existingEmails (i + 1) rest).1,
        e :: (processRows existingEmails (i + 1) rest).2)
    | none =>
      ((processRows existingEmails (i + 1) rest).1 + 1,
        (processRows existingEmails (i + 1) rest).2)

/-- Embedding of the batch phase of `processBulkUpload`: process all data
rows from index 0 and report success count and error list together. -/
def processBulkUpload (existingEmails : List String)
    (rows : List (CandidateRow × Option String)) : Nat × List String :=
  processRows existingEmails 0 rows

/-! ## Date formatter (`formatDateForIST`) -/

/-- Milliseconds per calendar day. -/
def msPerDay : Int := 86400000

/-- The fixed IST offset (UTC+5:30) in milliseconds. -/
def istOffsetMs : Int := 19800000

/-- Modelled from the spec: `formatDateForIST` is imported from
`src/utils/dateUtils`, which is not among the sources; per the spec it
"converts any date to a calendar-date string normalized to a fixed timezone
offset".  A JS `Date` is an absolute timestamp (milliseconds since epoch);
the calendar day it falls on in the fixed timezone is the floor of the
offset-shifted timestamp divided by the day length. -/
def istDayIndex (timestampMs : Int) : Int :=
  (timestampMs + istOffsetMs).fdiv msPerDay

/-- Modelled from the spec: the calendar-date string for a timestamp,
normalized to the fixed IST offset.  The caller's local timezone offset is
a parameter only to record that the result does not depend on it; the
string renders the fixed-timezone calendar day (the model renders the day
index itself, which determines the calendar date one-to-one). -/
def formatDateForIST (timestampMs : Int) (_localOffsetMinutes : Int) : String :=
  toString (istDayIndex timestampMs)

/-! ## Concrete inputs for the example scenarios -/

/-- Three staff profiles with no existing schedules (example scenario). -/
def exampleStaff : List String := ["alice", "bob", "chandra"]

/-- The 30 day strings of a 30-day month (example scenario). -/
def exampleDays : List String :=
  (List.range 30).map fun i => "2025-04-" ++ padStart2 (natToString (i + 1))

/-! ## Theorems -/

/-- C1: for every integer candidate count `c`, `validateSessionCapacity c`
is valid iff `c ≤ 40` and carries a warning iff `30 ≤ c ≤ 40`; at 35 it
returns valid with the approaching-capacity warning, and at 41 invalid with
the capacity-exceeded error. -/
theorem validateSessionCapacity_spec :
    (∀ c : Int, (validateSessionCapacity c).isValid = true ↔ c ≤ 40) ∧
    (∀ c : Int, (validateSessionCapacity c).warning.isSome = true ↔ 30 ≤ c ∧ c ≤ 40) ∧
    validateSessionCapacity 35 =
      { isValid := true
        warning := some "Session approaching capacity (35/40 candidates)"
        error := none } ∧
    validateSessionCapacity 41 =
      { isValid := false
        warning := none
        error := some "Session exceeds maximum capacity of 40 candidates" } := by
  refine ⟨fun c => ?_, fun c => ?_, by decide, by decide⟩
  · unfold validateSessionCapacity
    split
    · simpa using by omega
    · split <;> simpa using by omega
  · unfold validateSessionCapacity
    split
    · simpa using by omega
    · split <;> simpa using by omega

/-- C9: two timestamps falling on the same calendar day in the fixed IST
timezone format to identical calendar-date strings, whatever local timezone
offsets the two calls run under. -/
theorem formatDateForIST_sameDay (d1 d2 : Int)
    (h : istDayIndex d1 = istDayIndex d2) (off1 off2 : Int) :
    formatDateForIST d1 off1 = formatDateForIST d2 off2 := by
  unfold formatDateForIST
  rw [h]

/-- Witness for C9: 03:00 and 12:00 UTC on 1970-01-01 are the same IST
calendar day; the formatter agrees on them across two local offsets. -/
theorem formatDateForIST_sameDay_witness :
    istDayIndex 10800000 = istDayIndex 43200000 ∧
    formatDateForIST 10800000 (-480) = formatDateForIST 43200000 330 :=
  ⟨by decide, formatDateForIST_sameDay 10800000 43200000 (by decide) (-480) 330⟩

/-! ### Decimal round trip -/

theorem parseDigits_append (l1 l2 : List Nat) (a : Nat) :
    parseDigits a (l1 ++ l2) = parseDigits (parseDigits a l1) l2 := by
  induction l1 generalizing a with
  | nil => simp [parseDigits]
  | cons d rest ih => simp [parseDigits, ih]

theorem parseDigits_decDigitsCore :
    ∀ fuel n, n < fuel → parseDigits 0 (decDigitsCore fuel n) = n := by
  intro fuel
  induction fuel with
  | zero => omega
  | succ fuel ih =>
    intro n h
    unfold decDigitsCore
    split
    · simp [parseDigits]
    · have hdiv : n / 10 < n := Nat.div_lt_self (by omega) (by omega)
      rw [parseDigits_append, ih (n / 10) (by omega)]
      simp [parseDigits]
      omega

theorem parseDigits_decDigits (n : Nat) : parseDigits 0 (decDigits n) = n :=
  parseDigits_decDigitsCore (n + 1) n (Nat.lt_succ_self n)

theorem decDigitsCore_lt_ten :
    ∀ fuel n d, d ∈ decDigitsCore fuel n → d < 10 := by
  intro fuel
  induction fuel with
  | zero =>
    intro n d hd
    simp [decDigitsCore] at hd
  | succ fuel ih =>
    intro n d hd
    unfold decDigitsCore at hd
    split at hd
    · simp at hd
      omega
    · rcases List.mem_append.mp hd with h | h
      · exact ih (n / 10) d h
      · simp at h
        omega

theorem decDigits_lt_ten (n : Nat) : ∀ d ∈ decDigits n, d < 10 :=
  fun d hd => decDigitsCore_lt_ten (n + 1) n d hd

theorem charDigit_digitChar : ∀ d, d < 10 → charDigit (digitChar d) = d := by decide

theorem map_charDigit_digitChar (ds : List Nat) (h : ∀ d ∈ ds, d < 10) :
    (ds.map digitChar).map charDigit = ds := by
  induction ds with
  | nil => rfl
  | cons d rest ih =>
    simp only [List.map_cons, List.cons.injEq]
    exact ⟨charDigit_digitChar d (h d (List.mem_cons_self d rest)),
      ih fun x hx => h x (List.mem_cons_of_mem d hx)⟩

theorem parseDigits_replicate_zero (k : Nat) (l : List Nat) :
    parseDigits 0 (List.replicate k 0 ++ l) = parseDigits 0 l := by
  induction k with
  | zero => rfl
  | succ k ih => simpa [parseDigits] using ih

/-- Parsing inverts rendering: the numeric suffix `getNextVersionNumber`
reads back from a version string the component wrote is the number that was
written. -/
theorem parseVersionSuffix_formatVersion (n : Nat) :
    parseVersionSuffix (formatVersion n) = n := by
  have hdata : (formatVersion n).data = 'v' :: '.' :: (padStart2 (natToString n)).data := rfl
  unfold parseVersionSuffix
  rw [hdata]
  show parseDigits 0 (List.map charDigit (padStart2 (natToString n)).data) = n
  unfold padStart2
  split
  · show parseDigits 0
      (List.map charDigit (List.replicate _ '0' ++ (natToString n).data)) = n
    rw [List.map_append, List.map_replicate]
    show parseDigits 0
      (List.replicate _ 0 ++ List.map charDigit (natToString n).data) = n
    rw [parseDigits_replicate_zero]
    show parseDigits 0 (((decDigits n).map digitChar).map charDigit) = n
    rw [map_charDigit_digitChar _ (decDigits_lt_ten n)]
    exact parseDigits_decDigits n
  · show parseDigits 0 (List.map charDigit (natToString n).data) = n
    show parseDigits 0 (((decDigits n).map digitChar).map charDigit) = n
    rw [map_charDigit_digitChar _ (decDigits_lt_ten n)]
    exact parseDigits_decDigits n

/-- C4: within a (month, year) scope the next version number is the previous
numeric suffix plus one, zero-padded (`"v.01"` when no version exists yet,
the history head's suffix plus one otherwise), so suffixes are consecutive
and strictly increasing. -/
theorem getNextVersionNumber_spec (vs : List RosterVersion) (n : Nat)
    (h : (vs = [] ∧ n = 0) ∨
      ∃ v rest, vs = v :: rest ∧ v.version_number = formatVersion n) :
    getNextVersionNumber vs = formatVersion (n + 1) ∧
    parseVersionSuffix (getNextVersionNumber vs) = n + 1 := by
  have hmain : getNextVersionNumber vs = formatVersion (n + 1) := by
    rcases h with ⟨hvs, hn⟩ | ⟨v, rest, hvs, hv⟩
    · subst hvs
      subst hn
      decide
    · subst hvs
      show formatVersion (parseVersionSuffix v.version_number + 1) = formatVersion (n + 1)
      rw [hv, parseVersionSuffix_formatVersion]
  exact ⟨hmain, by rw [hmain, parseVersionSuffix_formatVersion]⟩

/-- Witness for C4: on a history headed by `"v.07"` the next version is
`"v.08"` with suffix 8; on an empty history (taking the previous suffix as
0) it is `"v.01"`. -/
theorem getNextVersionNumber_spec_witness :
    getNextVersionNumber [⟨1, 3, 2025, "v.07", "u", "edit", true⟩] = "v.08" ∧
    getNextVersionNumber [] = "v.01" := by
  constructor
  · have h := getNextVersionNumber_spec [⟨1, 3, 2025, "v.07", "u", "edit", true⟩] 7
      (Or.inr ⟨⟨1, 3, 2025, "v.07", "u", "edit", true⟩, [], rfl, by decide⟩)
    rw [h.1]
    decide
  · have h := getNextVersionNumber_spec [] 0 (Or.inl ⟨rfl, rfl⟩)
    rw [h.1]
    decide

/-! ### `quickAddMonth` -/

/-- Walking the days from counter `i`, the day at offset `j` that lacks an
existing row receives the pattern code for index `i + j`. -/
theorem quickAddDays_mem (staff : String) (store : List Schedule) :
    ∀ (days : List String) (i j : Nat) (d : String),
    days.get? j = some d →
    store.find? (scheduleKeyMatch staff d) = none →
    ({ profile_id := staff, date := d
       shift_code := if (i + j) % 7 == 6 then "RD" else "D"
       status := "confirmed" : Schedule }) ∈ quickAddDays staff store i days := by
  intro days
  induction days with
  | nil =>
    intro i j d hget
    simp at hget
  | cons d0 rest ih =>
    intro i j d hget hfind
    unfold quickAddDays
    cases j with
    | zero =>
      simp at hget
      subst hget
      rw [hfind]
      simp
    | succ j' =>
      simp only [List.get?_cons_succ] at hget
      have h := ih (i + 1) j' d hget hfind
      have harith : i + 1 + j' = i + (j' + 1) := by omega
      rw [harith] at h
      exact List.mem_append_right _ h

/-- Every row emitted by the per-staff walk carries that staff id, a day
absent from the store, and a status/shift shape from the pattern. -/
theorem quickAddDays_sound (staff : String) (store : List Schedule) :
    ∀ (days : List String) (i : Nat) (r : Schedule),
    r ∈ quickAddDays staff store i days →
    r.profile_id = staff ∧ store.find? (scheduleKeyMatch staff r.date) = none := by
  intro days
  induction days with
  | nil =>
    intro i r hr
    simp [quickAddDays] at hr
  | cons d0 rest ih =>
    intro i r hr
    unfold quickAddDays at hr
    rcases List.mem_append.mp hr with h | h
    · cases hfind : store.find? (scheduleKeyMatch staff d0) with
      | none =>
        rw [hfind] at h
        simp at h
        subst h
        exact ⟨rfl, hfind⟩
      | some v =>
        rw [hfind] at h
        simp at h
    · exact ih (i + 1) r h

/-- C2: `quickAddMonth` gives every (staff, day) pair lacking an existing
row the shift code of the zero-based day index — `"RD"` when the index is
≡ 6 (mod 7), `"D"` otherwise — each staff member's cycle starting at day 1
of the month; on a 30-day month with 3 staff members and an empty store it
produces exactly 90 rows, with rest days exactly at zero-based indices
6, 13, 20, 27 for each staff member. -/
theorem quickAddMonth_pattern :
    (∀ (staff : List String) (days : List String) (store : List Schedule)
      (s d : String) (j : Nat),
      s ∈ staff → days.get? j = some d →
      store.find? (scheduleKeyMatch s d) = none →
      ({ profile_id := s, date := d
         shift_code := if j % 7 == 6 then "RD" else "D"
         status := "confirmed" : Schedule }) ∈ quickAddRows staff days store) ∧
    (quickAddRows exampleStaff exampleDays []).length = 90 ∧
    (∀ s ∈ exampleStaff,
      ((quickAddRows exampleStaff exampleDays []).filter
        (fun r => r.profile_id == s && r.shift_code == "RD")).map Schedule.date =
      ["2025-04-07", "2025-04-14", "2025-04-21", "2025-04-28"]) := by
  refine ⟨?_, by decide, by decide⟩
  intro staff days store s d j hs hget hfind
  have h := quickAddDays_mem s store days 0 j d hget hfind
  rw [Nat.zero_add] at h
  exact List.mem_flatMap.mpr ⟨s, hs, h⟩

/-- Witness for C2: with the example staff and month and an empty store,
day index 6 for "alice" is a rest day. -/
theorem quickAddMonth_pattern_witness :
    "alice" ∈ exampleStaff ∧
    exampleDays.get? 6 = some "2025-04-07" ∧
    ([] : List Schedule).find? (scheduleKeyMatch "alice" "2025-04-07") = none ∧
    ({ profile_id := "alice", date := "2025-04-07"
       shift_code := "RD", status := "confirmed" : Schedule }) ∈
      quickAddRows exampleStaff exampleDays [] :=
  ⟨by decide, by decide, rfl,
    quickAddMonth_pattern.1 exampleStaff exampleDays [] "alice" "2025-04-07" 6
      (by decide) (by decide) rfl⟩

/-- A `find?` hit in a prefix survives appending rows. -/
theorem find?_append_of_some {α : Type} (p : α → Bool) :
    ∀ (l1 l2 : List α) (r : α), l1.find? p = some r → (l1 ++ l2).find? p = some r := by
  intro l1 l2 r
  induction l1 with
  | nil => intro h; simp [List.find?] at h
  | cons a rest ih =>
    intro h
    rw [List.cons_append]
    rw [List.find?] at h ⊢
    cases hp : p a with
    | true => rw [hp] at h; simpa [hp] using h
    | false => rw [hp] at h; simpa [hp] using ih h

/-- C3: `quickAddMonth` never modifies an existing schedule row: every row
of the store is still in the store afterwards, any (staff, date) lookup
that succeeded before returns the very same row afterwards, and every
inserted row is for a (staff, date) pair absent from the store. -/
theorem quickAddMonth_frame (staff : List String) (days : List String)
    (store : List Schedule) :
    (∀ r ∈ store, r ∈ quickAddMonth staff days store) ∧
    (∀ (p : Schedule → Bool) (r : Schedule), store.find? p = some r →
      (quickAddMonth staff days store).find? p = some r) ∧
    (∀ r ∈ quickAddRows staff days store,
      store.find? (scheduleKeyMatch r.profile_id r.date) = none) := by
  refine ⟨fun r hr => List.mem_append_left _ hr,
    fun p r hr => find?_append_of_some p store _ r hr, ?_⟩
  intro r hr
  rcases List.mem_flatMap.mp hr with ⟨s, _hs, hmem⟩
  have h := quickAddDays_sound s store days 0 r hmem
  rw [h.1]
  exact h.2

/-- Witness for C3: a one-row store is untouched by a quick-add over one
staff member and two days, and the lookup for its key still returns it. -/
theorem quickAddMonth_frame_witness :
    ({ profile_id := "alice", date := "2025-04-01"
       shift_code := "L", status := "confirmed" : Schedule }) ∈
      quickAddMonth ["alice"] ["2025-04-01", "2025-04-02"]
        [{ profile_id := "alice", date := "2025-04-01"
           shift_code := "L", status := "confirmed" }] ∧
    (quickAddMonth ["alice"] ["2025-04-01", "2025-04-02"]
        [{ profile_id := "alice", date := "2025-04-01"
           shift_code := "L", status := "confirmed" }]).find?
      (scheduleKeyMatch "alice" "2025-04-01") =
      some { profile_id := "alice", date := "2025-04-01"
             shift_code := "L", status := "confirmed" } :=
  ⟨(quickAddMonth_frame ["alice"] ["2025-04-01", "2025-04-02"] _).1 _ (by decide),
    (quickAddMonth_frame ["alice"] ["2025-04-01", "2025-04-02"] _).2.1
      (scheduleKeyMatch "alice" "2025-04-01") _ (by decide)⟩

/-! ### Version ledger: one active row per scope -/

theorem countP_map_congr {α : Type} (f : α → α) (p : α → Bool) :
    ∀ l : List α, (∀ a ∈ l, p (f a) = p a) → (l.map f).countP p = l.countP p := by
  intro l
  induction l with
  | nil => intro _; rfl
  | cons a rest ih =>
    intro h
    rw [List.map_cons, List.countP_cons, List.countP_cons,
      h a (List.mem_cons_self a rest), ih fun x hx => h x (List.mem_cons_of_mem a hx)]

/-- C5: an uninterrupted `createNewVersion` first deactivates the tracked
active version of the (month, year) scope (if any) and then appends exactly
one new row, active and carrying the edit description and the acting user;
provided every active row of the scope is the tracked one (and ids are
unique), exactly one row of the scope is active afterwards, and the active
counts of all other scopes are unchanged. -/
theorem createNewVersion_one_active (ledger : List RosterVersion)
    (curr : Option RosterVersion) (newId m y : Nat) (vn user log : String)
    (hactive : ∀ v ∈ ledger, v.is_active = true → v.month = m → v.year = y →
      ∃ cv, curr = some cv ∧ v.id = cv.id)
    (hcurr : ∀ cv, curr = some cv →
      cv.month = m ∧ cv.year = y ∧ ∀ v ∈ ledger, v.id = cv.id → v = cv) :
    (createNewVersionRun ledger curr (mkVersionRow newId m y vn user log) none none).1
      = deactivateCurrent ledger curr ++ [mkVersionRow newId m y vn user log] ∧
    (createNewVersionRun ledger curr (mkVersionRow newId m y vn user log) none none).1.length
      = ledger.length + 1 ∧
    (mkVersionRow newId m y vn user log).is_active = true ∧
    (mkVersionRow newId m y vn user log).edit_log = log ∧
    (mkVersionRow newId m y vn user log).created_by = user ∧
    countActiveScope
      (createNewVersionRun ledger curr (mkVersionRow newId m y vn user log) none none).1 m y = 1 ∧
    (∀ m' y', ¬(m' = m ∧ y' = y) →
      countActiveScope
        (createNewVersionRun ledger curr (mkVersionRow newId m y vn user log) none none).1 m' y'
        = countActiveScope ledger m' y') := by
  have hrow_p : (fun v : RosterVersion => v.is_active && v.month == m && v.year == y)
      (mkVersionRow newId m y vn user log) = true := by
    simp [mkVersionRow]
  have hdeact_zero :
      (deactivateCurrent ledger curr).countP
        (fun v => v.is_active && v.month == m && v.year == y) = 0 := by
    cases hc : curr with
    | none =>
      rw [List.countP_eq_zero]
      intro v hv hp
      simp only [Bool.and_eq_true, beq_iff_eq] at hp
      obtain ⟨cv, hcv, _⟩ := hactive v hv hp.1.1 hp.1.2 hp.2
      rw [hc] at hcv
      exact Option.noConfusion hcv
    | some cv =>
      rw [deactivateCurrent]
      rw [List.countP_eq_zero]
      intro v' hv'
      rcases List.mem_map.mp hv' with ⟨v, hv, hfv⟩
      by_cases hid : v.id = cv.id
      · have heq : v' = { v with is_active := false } := by
          rw [← hfv]
          simp [hid]
        rw [heq]
        simp
      · have heq : v' = v := by
          rw [← hfv]
          simp [hid]
        rw [heq]
        intro hp
        simp only [Bool.and_eq_true, beq_iff_eq] at hp
        obtain ⟨cv', hcv', hid'⟩ := hactive v hv hp.1.1 hp.1.2 hp.2
        rw [hc] at hcv'
        have hcveq : cv = cv' := Option.some.inj hcv'
        exact hid (hcveq ▸ hid')
  have hres : (createNewVersionRun ledger curr (mkVersionRow newId m y vn user log) none none).1
      = deactivateCurrent ledger curr ++ [mkVersionRow newId m y vn user log] := rfl
  have hlen : (deactivateCurrent ledger curr).length = ledger.length := by
    cases curr with
    | none => rfl
    | some cv => exact List.length_map _ _
  refine ⟨hres, by rw [hres]; simp [hlen], rfl, rfl, rfl, ?_, ?_⟩
  · rw [hres]
    unfold countActiveScope
    rw [List.countP_append, hdeact_zero]
    simp [hrow_p]
  · intro m' y' hne
    rw [hres]
    unfold countActiveScope
    rw [List.countP_append]
    have hnew : (fun v : RosterVersion => v.is_active && v.month == m' && v.year == y')
        (mkVersionRow newId m y vn user log) = false := by
      simp only [mkVersionRow, Bool.and_eq_true, beq_iff_eq, Bool.and_eq_false_iff]
      by_cases hm : m = m'
      · right
        simp only [beq_eq_false_iff_ne, ne_eq]
        intro hy
        exact hne ⟨hm.symm, hy.symm⟩
      · left
        right
        simp only [beq_eq_false_iff_ne, ne_eq]
        exact hm
    have hsingle : List.countP
        (fun v : RosterVersion => v.is_active && v.month == m' && v.year == y')
        [mkVersionRow newId m y vn user log] = 0 := by
      simp [List.countP_cons, hnew]
    rw [hsingle, Nat.add_zero]
    cases hc : curr with
    | none => rfl
    | some cv =>
      rw [deactivateCurrent]
      apply countP_map_congr
      intro v hv
      by_cases hid : v.id = cv.id
      · obtain ⟨hcvm, hcvy, huniq⟩ := hcurr cv hc
        have hveq : v = cv := huniq v hv hid
        subst hveq
        simp only [hid, beq_self_eq_true, if_true]
        have hscope : (v.month == m' && v.year == y') = false := by
          simp only [Bool.and_eq_false_iff, beq_eq_false_iff_ne, ne_eq]
          by_cases hm : v.month = m'
          · right
            intro hy
            exact hne ⟨hm ▸ hcvm.symm ▸ rfl, hy ▸ hcvy.symm ▸ rfl⟩
          · left
            exact hm
        cases hb1 : (v.month == m') with
        | false => simp [hb1]
        | true =>
          cases hb2 : (v.year == y') with
          | false => simp [hb1, hb2]
          | true => rw [hb1, hb2] at hscope; simp at hscope
      · simp [hid]

/-- Witness for C5: recording an edit on a ledger whose single scope-(3,
2025) row is active (and tracked) leaves exactly one active row in the
scope. -/
theorem createNewVersion_one_active_witness :
    countActiveScope
      (createNewVersionRun [⟨1, 3, 2025, "v.01", "u", "init", true⟩]
        (some ⟨1, 3, 2025, "v.01", "u", "init", true⟩)
        (mkVersionRow 2 3 2025 "v.02" "u" "edit") none none).1 3 2025 = 1 :=
  (createNewVersion_one_active [⟨1, 3, 2025, "v.01", "u", "init", true⟩]
    (some ⟨1, 3, 2025, "v.01", "u", "init", true⟩) 2 3 2025 "v.02" "u" "edit"
    (by
      intro v hv _ _ _
      refine ⟨⟨1, 3, 2025, "v.01", "u", "init", true⟩, rfl, ?_⟩
      simp at hv
      rw [hv])
    (by
      intro cv hcv
      have h := Option.some.inj hcv
      subst h
      refine ⟨rfl, rfl, ?_⟩
      intro v hv _
      simpa using hv)).2.2.2.2.2.1

/-! ### `applyApprovedRequest`: upsert of the derived shift code -/

/-- A `find?` miss in a prefix passes the search to the appended rows. -/
theorem find?_append_of_none {α : Type} (p : α → Bool) :
    ∀ (l1 l2 : List α), l1.find? p = none → (l1 ++ l2).find? p = l2.find? p := by
  intro l1 l2
  induction l1 with
  | nil => intro _; rfl
  | cons a rest ih =>
    intro h
    rw [List.find?] at h
    cases hp : p a with
    | true => rw [hp] at h; exact Option.noConfusion h
    | false =>
      rw [hp] at h
      rw [List.cons_append, List.find?, hp]
      exact ih h

/-- Updating, through its id, the row that a (profile, date) lookup found
makes the lookup return the updated row (ids assumed unique). -/
theorem find?_update_by_id (pid d code : String) :
    ∀ (store : List ScheduleRow) (e : ScheduleRow),
    store.find? (rowKeyMatch pid d) = some e →
    (∀ v ∈ store, v.id = e.id → v = e) →
    (store.map fun s =>
      if s.id == e.id then
        { s with profile_id := pid, date := d, shift_code := code, status := "confirmed" }
      else s).find? (rowKeyMatch pid d)
      = some { e with profile_id := pid, date := d
                      shift_code := code, status := "confirmed" } := by
  intro store
  induction store with
  | nil =>
    intro e h
    simp [List.find?] at h
  | cons a rest ih =>
    intro e hfind huniq
    rw [List.find?] at hfind
    cases hpa : rowKeyMatch pid d a with
    | true =>
      rw [hpa] at hfind
      have hae : a = e := Option.some.inj hfind
      subst hae
      rw [List.map_cons]
      simp only [beq_self_eq_true, if_true]
      rw [List.find?]
      have : rowKeyMatch pid d
          { a with profile_id := pid, date := d
                   shift_code := code, status := "confirmed" } = true := by
        simp [rowKeyMatch]
      rw [this]
    | false =>
      rw [hpa] at hfind
      have haid : (a.id == e.id) = false := by
        by_cases h : a.id = e.id
        · exfalso
          have hae : a = e := huniq a (List.mem_cons_self a rest) h
          have hpe : rowKeyMatch pid d e = true := List.find?_some hfind
          rw [hae] at hpa
          rw [hpa] at hpe
          exact Bool.noConfusion hpe
        · simpa using h
      rw [List.map_cons, haid]
      simp only [Bool.false_eq_true, if_false]
      rw [List.find?, hpa]
      exact ih e hfind fun v hv => huniq v (List.mem_cons_of_mem a hv)

/-- C6: applying an approved request upserts, at (requester, requested
date), the shift code `"HD"` for a half-day request and `"L"` otherwise:
the lookup afterwards yields a row with that code; an existing row is
overwritten in place through its id (store length unchanged), and with no
existing row a fresh row is appended. -/
theorem applyApprovedRequest_spec (store : List ScheduleRow) (req : LeaveRequest)
    (fid : Nat) (huniq : ∀ e ∈ store, ∀ v ∈ store, v.id = e.id → v = e) :
    (∃ r, (applyApprovedRequest store req fid).find?
        (rowKeyMatch req.user_id req.requested_date) = some r ∧
      r.shift_code = requestShiftCode req.request_type ∧
      r.profile_id = req.user_id ∧ r.date = req.requested_date ∧
      r.status = "confirmed") ∧
    (∀ e, store.find? (rowKeyMatch req.user_id req.requested_date) = some e →
      (applyApprovedRequest store req fid).length = store.length) ∧
    (store.find? (rowKeyMatch req.user_id req.requested_date) = none →
      applyApprovedRequest store req fid = store ++
        [{ id := fid, profile_id := req.user_id, date := req.requested_date
           shift_code := requestShiftCode req.request_type, status := "confirmed" }]) ∧
    requestShiftCode "half_day" = "HD" ∧
    (∀ t, ¬t = "half_day" → requestShiftCode t = "L") := by
  refine ⟨?_, ?_, ?_, rfl, ?_⟩
  · unfold applyApprovedRequest upsertSchedule
    cases hfind : store.find? (rowKeyMatch req.user_id req.requested_date) with
    | none =>
      refine ⟨⟨fid, req.user_id, req.requested_date,
        requestShiftCode req.request_type, "confirmed"⟩, ?_, ?_, ?_, ?_, ?_⟩
      · rw [find?_append_of_none _ store _ hfind]
        rw [List.find?]
        have hk : rowKeyMatch req.user_id req.requested_date
            { id := fid, profile_id := req.user_id, date := req.requested_date
              shift_code := requestShiftCode req.request_type
              status := "confirmed" } = true := by
          simp [rowKeyMatch]
        rw [hk]
      · rfl
      · rfl
      · rfl
      · rfl
    | some e =>
      have he : e ∈ store := List.mem_of_find?_eq_some hfind
      refine ⟨_, find?_update_by_id req.user_id req.requested_date
        (requestShiftCode req.request_type) store e hfind (huniq e he),
        ?_, ?_, ?_, ?_⟩ <;> rfl
  · intro e hfind
    unfold applyApprovedRequest upsertSchedule
    rw [hfind]
    exact List.length_map _ _
  · intro hfind
    unfold applyApprovedRequest upsertSchedule
    rw [hfind]
  · intro t ht
    unfold requestShiftCode
    have : (t == "half_day") = false := by simpa using ht
    rw [this]
    simp

/-- Witness for C6: approving a half-day request for staff "x" on
2025-03-10 over a store that already holds a row for that day overwrites it
with shift code "HD" and leaves the store size unchanged. -/
theorem applyApprovedRequest_spec_witness :
    (∃ r, (applyApprovedRequest
        [{ id := 9, profile_id := "x", date := "2025-03-10"
           shift_code := "D", status := "confirmed" }]
        { user_id := "x", request_type := "half_day", requested_date := "2025-03-10" }
        7).find? (rowKeyMatch "x" "2025-03-10") = some r ∧
      r.shift_code = requestShiftCode "half_day" ∧
      r.profile_id = "x" ∧ r.date = "2025-03-10" ∧ r.status = "confirmed") ∧
    (applyApprovedRequest
      [{ id := 9, profile_id := "x", date := "2025-03-10"
         shift_code := "D", status := "confirmed" }]
      { user_id := "x", request_type := "half_day", requested_date := "2025-03-10" }
      7).length = 1 := by
  have h := applyApprovedRequest_spec
    [{ id := 9, profile_id := "x", date := "2025-03-10"
       shift_code := "D", status := "confirmed" }]
    { user_id := "x", request_type := "half_day", requested_date := "2025-03-10" }
    7 (by intro e he v hv _; simp at he hv; rw [he, hv])
  exact ⟨h.1, h.2.1 ⟨9, "x", "2025-03-10", "D", "confirmed"⟩ (by decide)⟩

/-! ### Checklist instantiation -/

/-- C7: instantiating a template with N items produces exactly one instance
row named `"{template name} - {today}"` plus exactly N instance items, the
j-th copying the j-th template item's title, description, priority,
estimated time, responsible role, notes and sort order, referencing its
source template item id, and starting not completed with
`completed_by`/`completed_at` unset. -/
theorem handleCreateInstance_spec (template : ChecklistTemplate)
    (today instanceId userId : String) :
    (handleCreateInstance template today instanceId userId).1 =
      { template_id := template.id
        name := template.name ++ " - " ++ today
        category := template.category
        exam_date := today
        created_by := userId } ∧
    (handleCreateInstance template today instanceId userId).2.length =
      template.items.length ∧
    (∀ (j : Nat) (ti : ChecklistTemplateItem), template.items.get? j = some ti →
      (handleCreateInstance template today instanceId userId).2.get? j = some
        { instance_id := instanceId
          template_item_id := some ti.id
          title := ti.title
          description := ti.description
          priority := ti.priority
          estimated_time_minutes := ti.estimated_time_minutes
          responsible_role := ti.responsible_role
          notes := ti.notes
          sort_order := ti.sort_order
          is_completed := false
          completed_by := none
          completed_at := none }) := by
  refine ⟨rfl, List.length_map _ _, ?_⟩
  intro j ti hj
  show (template.items.map _).get? j = _
  rw [List.get?_map, hj]
  rfl

/-- Witness for C7: instantiating a one-item template copies the item into
an unfinished instance item backlinked to it. -/
theorem handleCreateInstance_spec_witness :
    (handleCreateInstance
      { id := "t1", name := "Pre-exam", category := "pre-exam"
        items := [{ id := "i1", title := "Seal packets", description := none
                    priority := "high", estimated_time_minutes := 15
                    responsible_role := "staff", notes := none, sort_order := 1 }] }
      "2025-03-10" "inst1" "u1").2.get? 0 = some
      { instance_id := "inst1", template_item_id := some "i1"
        title := "Seal packets", description := none, priority := "high"
        estimated_time_minutes := 15, responsible_role := "staff", notes := none
        sort_order := 1, is_completed := false
        completed_by := none, completed_at := none } :=
  (handleCreateInstance_spec
    { id := "t1", name := "Pre-exam", category := "pre-exam"
      items := [{ id := "i1", title := "Seal packets", description := none
                  priority := "high", estimated_time_minutes := 15
                  responsible_role := "staff", notes := none, sort_order := 1 }] }
    "2025-03-10" "inst1" "u1").2.2 0
    { id := "i1", title := "Seal packets", description := none
      priority := "high", estimated_time_minutes := 15
      responsible_role := "staff", notes := none, sort_order := 1 } rfl

/-! ### CSV bulk upload -/

theorem processRows_cons (ex : List String) (i : Nat) (row : CandidateRow)
    (dbErr : Option String) (rest : List (CandidateRow × Option String)) :
    processRows ex i ((row, dbErr) :: rest) =
      match bulkRowError ex i row dbErr with
      | some e => ((processRows ex (i + 1) rest).1, e :: (processRows ex (i + 1) rest).2)
      | none => ((processRows ex (i + 1) rest).1 + 1, (processRows ex (i + 1) rest).2) := rfl

/-- C8: a failing row of the CSV bulk upload never aborts the batch.
Splitting the data rows anywhere, the result on the whole batch is the
result on the prefix combined with the full result on the suffix (success
counts add, error lists concatenate), whatever errors the prefix hit;
every row contributes exactly one success or one error message
(`success + errors = rows`); a failing singleton contributes its message
and no success; and the batch reports the success count and the error list
together as one pair. -/
theorem processBulkUpload_spec :
    (∀ (ex : List String) (i : Nat) (xs ys : List (CandidateRow × Option String)),
      processRows ex i (xs ++ ys) =
        ((processRows ex i xs).1 + (processRows ex (i + xs.length) ys).1,
         (processRows ex i xs).2 ++ (processRows ex (i + xs.length) ys).2)) ∧
    (∀ (ex : List String) (i : Nat) (rows : List (CandidateRow × Option String)),
      (processRows ex i rows).1 + (processRows ex i rows).2.length = rows.length) ∧
    (∀ (ex : List String) (i : Nat) (row : CandidateRow) (dbErr : Option String)
      (e : String), bulkRowError ex i row dbErr = some e →
      processRows ex i [(row, dbErr)] = (0, [e])) ∧
    (∀ (ex : List String) (rows : List (CandidateRow × Option String)),
      processBulkUpload ex rows = processRows ex 0 rows) := by
  refine ⟨?_, ?_, ?_, fun _ _ => rfl⟩
  · intro ex i xs ys
    induction xs generalizing i with
    | nil => simp [processRows]
    | cons x rest ih =>
      obtain ⟨row, dbErr⟩ := x
      rw [List.cons_append, processRows_cons, processRows_cons, ih (i + 1)]
      have harith : i + 1 + rest.length = i + (rest.length + 1) := by omega
      rw [List.length_cons, harith]
      cases bulkRowError ex i row dbErr <;> simp <;> omega
  · intro ex i rows
    induction rows generalizing i with
    | nil => rfl
    | cons x rest ih =>
      obtain ⟨row, dbErr⟩ := x
      rw [processRows_cons]
      cases bulkRowError ex i row dbErr <;> simp <;>
        first
        | simpa using ih (i + 1)
        | (rw [← ih (i + 1)]; omega)
  · intro ex i row dbErr e he
    rw [processRows_cons, he]
    rfl

/-- Witness for C8: a row with a missing email yields its error message
and no success. -/
theorem processBulkUpload_spec_witness :
    bulkRowError [] 0 { full_name := "Ann", email := "" } none =
      some "Row 2: Missing name or email" ∧
    processRows [] 0 [({ full_name := "Ann", email := "" }, none)] =
      (0, ["Row 2: Missing name or email"]) :=
  ⟨by decide, processBulkUpload_spec.2.2.1 [] 0 { full_name := "Ann", email := "" }
    none "Row 2: Missing name or email" (by decide)⟩

/-! ### `createNewVersion` never propagates a failure -/

/-- C10: every failure of the version-ledger writes inside
`createNewVersion` is caught and only logged, so `saveShift` still reports
success once its schedule write went through, `applyApprovedRequest`
returns normally, and `quickAddMonth` still reports success once its bulk
insert went through — whatever the ledger calls did; and when the version
insert failed, no new version row was recorded. -/
theorem createNewVersion_swallows_errors :
    (∀ (store : List ScheduleRow) (pid d code : String) (fid : Nat)
      (ledger : List RosterVersion) (curr : Option RosterVersion)
      (row : RosterVersion) (dErr iErr : Option String),
      (saveShiftRun store pid d code fid ledger curr row none dErr iErr).2.2 =
        "success: Shift updated successfully!") ∧
    (∀ (store : List ScheduleRow) (req : LeaveRequest) (fid : Nat)
      (ledger : List RosterVersion) (curr : Option RosterVersion)
      (row : RosterVersion) (dErr iErr : Option String),
      ∃ out, applyApprovedRequestRun store req fid ledger curr row none dErr iErr =
        .ok out) ∧
    (∀ (staff days : List String) (store : List Schedule)
      (ledger : List RosterVersion) (curr : Option RosterVersion)
      (row : RosterVersion) (dErr iErr : Option String),
      quickAddRows staff days store ≠ [] →
      (quickAddMonthRun staff days store ledger curr row none dErr iErr).2.2 =
        "success: Generated " ++ toString (quickAddRows staff days store).length ++
          " roster entries successfully!") ∧
    (∀ (ledger : List RosterVersion) (curr : Option RosterVersion)
      (row : RosterVersion) (m : String),
      (createNewVersionRun ledger curr row none (some m)).1 =
        deactivateCurrent ledger curr ∧
      (createNewVersionRun ledger curr row (some m) none).1 = ledger) := by
  refine ⟨fun _ _ _ _ _ _ _ _ dErr iErr => ?_, fun _ _ _ _ _ _ dErr iErr => ?_,
    fun staff days store _ _ _ dErr iErr hne => ?_, fun _ _ _ _ => ⟨rfl, rfl⟩⟩
  · cases dErr <;> cases iErr <;> rfl
  · cases dErr <;> cases iErr <;> exact ⟨_, rfl⟩
  · have hpos : 0 < (quickAddRows staff days store).length :=
      List.length_pos.mpr hne
    unfold quickAddMonthRun
    rw [if_pos hpos]

/-- Witness for C10: with a one-staff one-day quick-add over an empty store
and a failing version insert, the success notification is still shown. -/
theorem createNewVersion_swallows_errors_witness :
    quickAddRows ["alice"] ["2025-04-01"] [] ≠ [] ∧
    (quickAddMonthRun ["alice"] ["2025-04-01"] [] [] none
      (mkVersionRow 1 4 2025 "v.01" "u" "quick add") none none
      (some "insert failed")).2.2 =
      "success: Generated " ++ toString (quickAddRows ["alice"] ["2025-04-01"] []).length ++
        " roster entries successfully!" :=
  ⟨by decide, createNewVersion_swallows_errors.2.2.1 ["alice"] ["2025-04-01"] [] []
    none (mkVersionRow 1 4 2025 "v.01" "u" "quick add") none (some "insert failed")
    (by decide)⟩

end FetsPoint
